import Mathlib

/-!
Verification of the moisture-sensor simulator (`mock_moisture_simulator.py`).

Shallow embedding conventions:
* Python floats are modelled as `ℚ` (exact arithmetic, the spec's idealized
  number model); decimal literals such as `0.05` are the corresponding
  rationals.
* Wall-clock instants (`datetime`) are modelled as `ℕ` seconds since an
  epoch; `_daily_temp`'s `hour*3600 + minute*60 + second` is `t % 86400`.
* `math.sin` and `math.pi` are transcendental and are abstracted as explicit
  parameters `sinq : ℚ → ℚ` and `piq : ℚ` threaded through the definitions;
  no claim here depends on their values.
* Each call to `datetime.now(timezone.utc)` is one read of an abstract clock
  `clk : ℕ → ℕ` at the next call index; `_tick_all` makes one read for `now`
  and `_append_reading_unlocked` makes two further reads per reading (one
  for the temperature sample, one for the reading timestamp), exactly as in
  the source.
* The random perturbation `random.choice([-1,1])*random.uniform(0,4)` drawn
  for a `fault` device is modelled as an arbitrary per-device rational
  parameter (`noisef : ℕ → ℚ`, indexed by iteration position).
* `self._devices : Dict[str, _DeviceState]` is an insertion-ordered map,
  modelled as an association list `List (String × DeviceState)`; dict keys
  are unique, so entry-wise updates keyed on the id coincide with the
  Python dict mutations.
* Raised exceptions (`KeyError`, `ValueError("invalid status")`,
  `RuntimeError("device is offline")`, `IndexError` from `history[-1]`)
  become `Except StoreError`.
-/

/-- Error kinds raised by `DeviceStore` operations: `KeyError` (NotFound),
`ValueError` (InvalidArgument), `RuntimeError` (Conflict), and the
`IndexError` that `history[-1]` would raise on an empty history. -/
inductive StoreError where
  | notFound
  | invalidArgument
  | conflict
  | indexError
deriving DecidableEq

/-- `_clamp(x, lo, hi) = max(lo, min(hi, x))` (source line 111). -/
def clamp (x lo hi : ℚ) : ℚ := max lo (min hi x)

/-- Round-half-to-even on `ℚ`, the rounding mode of Python's builtin
`round` (idealized to exact decimal arithmetic). -/
def roundHalfEven (x : ℚ) : ℤ :=
  let f := ⌊x⌋
  let r := x - (f : ℚ)
  if r < 1/2 then f
  else if 1/2 < r then f + 1
  else if Even f then f else f + 1

/-- Python's `round(x, 2)`: round to two decimal places, ties to even. -/
def pyRound2 (x : ℚ) : ℚ := (roundHalfEven (x * 100) : ℚ) / 100

/-- `_daily_temp(ts, mean, amp)` (source line 115): seconds-of-day sinusoid
`mean + amp * sin(2π·seconds/86400 − π/2)`, with `sin`/`π` abstracted as
`sinq`/`piq`. -/
def dailyTemp (sinq : ℚ → ℚ) (piq : ℚ) (ts : ℕ) (mean amp : ℚ) : ℚ :=
  let seconds : ℚ := ((ts % 86400 : ℕ) : ℚ)
  let phase := (2 * piq * seconds) / (24 * 3600)
  mean + amp * sinq (phase - piq / 2)

/-- Per-device configuration (`class DeviceConfig`, source lines 29-51),
with the pydantic defaults. -/
structure DeviceConfig where
  min_threshold : ℚ := 25
  max_threshold : ℚ := 60
  evaporation_rate : ℚ := 0.015
  irrigation_rate : ℚ := 0.25
  noise : ℚ := 0.35
  auto_mode : Bool := false
  temp_mean_c : ℚ := 22
  temp_amp_c : ℚ := 4
  leak_rate : ℚ := 0
  battery_drain_per_hour : ℚ := 0.2
deriving DecidableEq

/-- The numeric field bounds pydantic enforces on `DeviceConfig`
(`Field(..., ge=..., le=...)`). -/
def DeviceConfig.Valid (c : DeviceConfig) : Prop :=
  0 ≤ c.min_threshold ∧ c.min_threshold ≤ 100 ∧
  0 ≤ c.max_threshold ∧ c.max_threshold ≤ 100 ∧
  0 ≤ c.evaporation_rate ∧ c.evaporation_rate ≤ 5 ∧
  0 ≤ c.irrigation_rate ∧ c.irrigation_rate ≤ 5 ∧
  0 ≤ c.noise ∧ c.noise ≤ 10 ∧
  0 ≤ c.temp_amp_c ∧
  0 ≤ c.leak_rate ∧ c.leak_rate ≤ 2 ∧
  0 ≤ c.battery_drain_per_hour ∧ c.battery_drain_per_hour ≤ 10

/-- `_heat_factor(ts, cfg)` (source line 121):
`max(0, min(0.3, (daily_temp − mean)/10))`. -/
def heatFactor (sinq : ℚ → ℚ) (piq : ℚ) (ts : ℕ) (cfg : DeviceConfig) : ℚ :=
  max 0 (min 0.3 ((dailyTemp sinq piq ts cfg.temp_mean_c cfg.temp_amp_c - cfg.temp_mean_c) / 10))

/-- Creation payload (`class DeviceCreate`, source lines 54-66), with the
pydantic defaults for the numeric fields. -/
structure DeviceCreate where
  name : String
  plant_type : String := "generic"
  location : Option String := none
  initial_moisture : ℚ := 50
  battery : ℚ := 100
  config : Option DeviceConfig := none
deriving DecidableEq

/-- The numeric bounds pydantic enforces on `DeviceCreate`
(`initial_moisture`/`battery` in `[0,100]`, nested config validated).
String-length constraints are irrelevant to the claims and omitted. -/
def DeviceCreate.Valid (p : DeviceCreate) : Prop :=
  0 ≤ p.initial_moisture ∧ p.initial_moisture ≤ 100 ∧
  0 ≤ p.battery ∧ p.battery ≤ 100 ∧
  ∀ c ∈ p.config, c.Valid

/-- Patch payload (`class DeviceUpdate`, source lines 69-77). -/
structure DeviceUpdate where
  name : Option String := none
  plant_type : Option String := none
  location : Option String := none
  config : Option DeviceConfig := none
deriving DecidableEq

/-- An immutable reading snapshot (`class Reading`, source lines 80-87).
`status` is the raw status string, as in the source. -/
structure Reading where
  timestamp : ℕ
  device_id : String
  moisture : ℚ
  temperature_c : ℚ
  battery : ℚ
  watering : Bool
  status : String
deriving DecidableEq

/-- A device (`class Device`, source lines 90-102). -/
structure Device where
  id : String
  name : String
  plant_type : String
  location : Option String := none
  created_at : ℕ
  updated_at : ℕ
  status : String := "ok"
  battery : ℚ := 100
  watering : Bool := false
  moisture : ℚ := 50
  config : DeviceConfig
deriving DecidableEq

/-- `_DeviceState` (source lines 105-108): a device plus its bounded
history deque. -/
structure DeviceState where
  device : Device
  history : List Reading
deriving DecidableEq

/-- The store's device map `Dict[str, _DeviceState]`, as an
insertion-ordered association list. -/
abbrev Store := List (String × DeviceState)

/-- Append to a `deque(maxlen=m)`: keep the last `m` elements of
`h ++ [r]` (on overflow the oldest element is discarded). -/
def dequeAppend (m : ℕ) (h : List Reading) (r : Reading) : List Reading :=
  (h ++ [r]).drop (h.length + 1 - m)

/-- Python dict lookup `self._devices.get(id)`. -/
def dictGet : Store → String → Option DeviceState
  | [], _ => none
  | e :: rest, id => if e.1 = id then some e.2 else dictGet rest id

/-- Python dict assignment `self._devices[id] = st`: replace in place if
the key exists, else append (insertion order). -/
def dictSet : Store → String → DeviceState → Store
  | [], id, st => [(id, st)]
  | e :: rest, id, st => if e.1 = id then (id, st) :: rest else e :: dictSet rest id st

/-- Construct the `Reading` built in `_append_reading_unlocked` (source
lines 272-282): the temperature is sampled at the clock read `tTemp` and
the timestamp at the following clock read `tStamp`; moisture, temperature
and battery are 2-decimal rounded. -/
def mkReading (sinq : ℚ → ℚ) (piq : ℚ) (tTemp tStamp : ℕ) (d : Device) : Reading :=
  { timestamp := tStamp
    device_id := d.id
    moisture := pyRound2 d.moisture
    temperature_c := pyRound2 (dailyTemp sinq piq tTemp d.config.temp_mean_c d.config.temp_amp_c)
    battery := pyRound2 d.battery
    watering := d.watering
    status := d.status }

/-- The history mutation of `_append_reading_unlocked` (source line 283):
`self._devices[device.id].history.append(r)` on the bounded deque. -/
def appendHist (maxH : ℕ) (s : Store) (id : String) (r : Reading) : Store :=
  s.map fun e => if e.1 = id then (e.1, ⟨e.2.device, dequeAppend maxH e.2.history r⟩) else e

namespace DeviceStore

/-- `DeviceStore.create` (source lines 135-155): build the device from the
payload (config defaulted if absent), store it with a fresh empty history,
then synchronously append one seed reading via
`_append_reading_unlocked`.  The freshly drawn uuid is the parameter
`device_id`; `now` is the single `datetime.now` read used for both
timestamps, and `tTemp`/`tStamp` are the two further clock reads made
inside the append. -/
def create (maxH : ℕ) (sinq : ℚ → ℚ) (piq : ℚ) (device_id : String)
    (now tTemp tStamp : ℕ) (p : DeviceCreate) (s : Store) : Device × Store :=
  let cfg := p.config.getD {}
  let d : Device :=
    { id := device_id
      name := p.name
      plant_type := p.plant_type
      location := p.location
      created_at := now
      updated_at := now
      status := "ok"
      battery := p.battery
      watering := false
      moisture := p.initial_moisture
      config := cfg }
  let s1 := dictSet s device_id ⟨d, []⟩
  (d, appendHist maxH s1 device_id (mkReading sinq piq tTemp tStamp d))

/-- `DeviceStore.update` (source lines 170-180): patch only the present
fields, refresh the update timestamp. -/
def update (s : Store) (id : String) (now : ℕ) (p : DeviceUpdate) :
    Except StoreError (Device × Store) :=
  match dictGet s id with
  | none => .error .notFound
  | some st =>
    let d := st.device
    let d2 : Device :=
      { d with
        name := p.name.getD d.name
        plant_type := p.plant_type.getD d.plant_type
        location := match p.location with | some l => some l | none => d.location
        config := p.config.getD d.config
        updated_at := now }
    .ok (d2, dictSet s id ⟨d2, st.history⟩)

/-- `DeviceStore.delete` (source lines 183-186): pop the device if present,
else `KeyError`. -/
def delete (s : Store) (id : String) : Except StoreError Store :=
  match dictGet s id with
  | some _ => .ok (s.filter fun e => !(e.1 == id))
  | none => .error .notFound

/-- `DeviceStore.current` (source lines 196-200): `KeyError` if the device
is absent, else the last history entry (`history[-1]`, which raises
`IndexError` on an empty deque). -/
def current (s : Store) (id : String) : Except StoreError Reading :=
  match dictGet s id with
  | none => .error .notFound
  | some st =>
    match st.history.getLast? with
    | some r => .ok r
    | none => .error .indexError

/-- `DeviceStore.set_status` (source lines 203-210): lookup first
(`KeyError` for an absent id), then validate the status string
(`ValueError` outside ok/fault/offline), then mutate status and the
update timestamp. -/
def set_status (s : Store) (id stv : String) (now : ℕ) :
    Except StoreError (Device × Store) :=
  match dictGet s id with
  | none => .error .notFound
  | some st =>
    if stv = "ok" ∨ stv = "fault" ∨ stv = "offline" then
      let d2 : Device := { st.device with status := stv, updated_at := now }
      .ok (d2, dictSet s id ⟨d2, st.history⟩)
    else .error .invalidArgument

/-- `DeviceStore.set_watering` (source lines 213-220): `KeyError` if
absent, `RuntimeError` (Conflict) if the device is offline, else set the
watering flag and the update timestamp. -/
def set_watering (s : Store) (id : String) (onb : Bool) (now : ℕ) :
    Except StoreError (Device × Store) :=
  match dictGet s id with
  | none => .error .notFound
  | some st =>
    if st.device.status = "offline" then .error .conflict
    else
      let d2 : Device := { st.device with watering := onb, updated_at := now }
      .ok (d2, dictSet s id ⟨d2, st.history⟩)

end DeviceStore

namespace DeviceStore

/-- The body of the per-device branch of `_tick_all` (source lines
248-268), excluding the reading append: given the tick duration
`TICK_SECONDS` (here `TS`), the captured `now`, and the fault perturbation
drawn for this device, produce the mutated device.  Offline devices only
drain battery at 1/20 rate; otherwise fault noise, irrigation or drying,
the auto-mode threshold rule (gated on `status == ok`), and normal battery
drain are applied in source order. -/
def tickDevice (TS : ℚ) (sinq : ℚ → ℚ) (piq : ℚ) (now : ℕ) (noise : ℚ)
    (d : Device) : Device :=
  if d.status = "offline" then
    { d with
      battery := clamp (d.battery - d.config.battery_drain_per_hour / 3600 * TS * 0.05) 0 100
      updated_at := now }
  else
    let m0 := if d.status = "fault" then clamp (d.moisture + noise) 0 100 else d.moisture
    let m1 :=
      if d.watering then clamp (m0 + d.config.irrigation_rate * TS) 0 100
      else
        clamp (m0 - (d.config.evaporation_rate + d.config.leak_rate)
          * (1 + heatFactor sinq piq now d.config) * TS) 0 100
    let w1 :=
      if d.config.auto_mode = true ∧ d.status = "ok" then
        (if m1 < d.config.min_threshold then true
         else if d.config.max_threshold ≤ m1 then false
         else d.watering)
      else d.watering
    { d with
      moisture := m1
      watering := w1
      battery := clamp (d.battery - d.config.battery_drain_per_hour / 3600 * TS) 0 100
      updated_at := now }

/-- One loop iteration of `_tick_all` for one store entry: mutate the
device, then `_append_reading_unlocked` builds the reading from the
mutated device (clock reads `tTemp` then `tStamp`) and appends it to that
entry's bounded history.  Returns the reading and the new entry. -/
def tickEntry (maxH : ℕ) (TS : ℚ) (sinq : ℚ → ℚ) (piq : ℚ) (now : ℕ)
    (noise : ℚ) (tTemp tStamp : ℕ) (e : String × DeviceState) :
    Reading × (String × DeviceState) :=
  let d := tickDevice TS sinq piq now noise e.2.device
  let r := mkReading sinq piq tTemp tStamp d
  (r, (e.1, ⟨d, dequeAppend maxH e.2.history r⟩))

/-- The `for s in self._devices.values()` loop of `_tick_all`: device `i`
(in store order) consumes perturbation `noisef i` and the clock reads at
indices `k` and `k+1`. -/
def tickDevices (maxH : ℕ) (TS : ℚ) (sinq : ℚ → ℚ) (piq : ℚ) (now : ℕ)
    (clk : ℕ → ℕ) (noisef : ℕ → ℚ) : ℕ → ℕ → Store → List Reading × Store
  | _, _, [] => ([], [])
  | i, k, e :: rest =>
    let p := tickEntry maxH TS sinq piq now (noisef i) (clk k) (clk (k + 1)) e
    let q := tickDevices maxH TS sinq piq now clk noisef (i + 1) (k + 2) rest
    (p.1 :: q.1, p.2 :: q.2)

/-- `DeviceStore._tick_all` (source lines 243-270): capture `now` with one
clock read (index `k`), then advance every device and collect the batch of
new readings in store order.  (The batch is then handed to `_broadcast`
outside the lock.) -/
def tickAll (maxH : ℕ) (TS : ℚ) (sinq : ℚ → ℚ) (piq : ℚ) (clk : ℕ → ℕ)
    (noisef : ℕ → ℚ) (k : ℕ) (s : Store) : List Reading × Store :=
  let now := clk k
  tickDevices maxH TS sinq piq now clk noisef 0 (k + 1) s

/-- `discard`: removal of one websocket from the client set
(`self._ws_clients.discard(ws)` inside `unregister_ws`). -/
def discard (clients : List ℕ) (c : ℕ) : List ℕ := clients.filter fun x => x ≠ c

/-- The `for ws in list(self._ws_clients)` delivery loop of `_broadcast`
(source lines 299-301): every client in the snapshot is attempted in
order; a client whose send raises (`sendOk c = false`) is collected into
`dead`.  Returns (attempted clients in order, dead clients in order). -/
def deliverPass (sendOk : ℕ → Bool) : List ℕ → List ℕ × List ℕ
  | [] => ([], [])
  | c :: rest =>
    let q := deliverPass sendOk rest
    (c :: q.1, if sendOk c then q.2 else c :: q.2)

/-- `DeviceStore._broadcast` (source lines 295-302): return immediately on
an empty batch; otherwise run the delivery pass over a snapshot of the
client set, then unregister every dead client.  The send outcome for each
client is the parameter `sendOk` (an exception-raising send is
`sendOk c = false`; all exceptions are caught, so the function is total
and returns the surviving client set together with the list of attempted
deliveries). -/
def broadcast (sendOk : ℕ → Bool) (clients : List ℕ) (batch : List Reading) :
    List ℕ × List ℕ :=
  if batch.isEmpty then (clients, [])
  else
    let q := deliverPass sendOk clients
    (q.2.foldl discard clients, q.1)

end DeviceStore

/-- The store-mutating operations an external caller or the simulation
loop can invoke (read-only operations `list`/`get`/`history` do not change
the state and are omitted from reachability).  `create` carries the fresh
uuid and the three clock reads it makes; `tick` carries the tick duration
`TICK_SECONDS`, the clock, the clock-call offset and the per-device fault
perturbations. -/
inductive Op where
  | create (id : String) (now tTemp tStamp : ℕ) (p : DeviceCreate)
  | update (id : String) (now : ℕ) (p : DeviceUpdate)
  | delete (id : String)
  | setStatus (id stv : String) (now : ℕ)
  | setWatering (id : String) (onb : Bool) (now : ℕ)
  | tick (TS : ℚ) (clk : ℕ → ℕ) (noisef : ℕ → ℚ) (k : ℕ)

/-- The validation the FastAPI/pydantic layer performs before an operation
reaches the store: creation payloads satisfy the `DeviceCreate` field
bounds.  (Other operations reach the store unconstrained in the respects
that matter here.) -/
def ValidOp : Op → Prop
  | .create _ _ _ _ p => p.Valid
  | _ => True

/-- Apply one operation to the store.  An operation that raises leaves the
store unchanged (in the source every raise happens before any mutation). -/
def applyOp (maxH : ℕ) (sinq : ℚ → ℚ) (piq : ℚ) (s : Store) : Op → Store
  | .create id now tT tS p => (DeviceStore.create maxH sinq piq id now tT tS p s).2
  | .update id now p =>
    match DeviceStore.update s id now p with
    | .ok q => q.2
    | .error _ => s
  | .delete id =>
    match DeviceStore.delete s id with
    | .ok s2 => s2
    | .error _ => s
  | .setStatus id stv now =>
    match DeviceStore.set_status s id stv now with
    | .ok q => q.2
    | .error _ => s
  | .setWatering id onb now =>
    match DeviceStore.set_watering s id onb now with
    | .ok q => q.2
    | .error _ => s
  | .tick TS clk noisef k => (DeviceStore.tickAll maxH TS sinq piq clk noisef k s).2

/-- The store states reachable from the empty store under validated
operations. -/
inductive Reachable (maxH : ℕ) (sinq : ℚ → ℚ) (piq : ℚ) : Store → Prop where
  | init : Reachable maxH sinq piq []
  | step {s : Store} {op : Op} (h : Reachable maxH sinq piq s) (hv : ValidOp op) :
      Reachable maxH sinq piq (applyOp maxH sinq piq s op)

/-! ### Basic lemmas about the helper functions -/

lemma clamp_nonneg (x : ℚ) : 0 ≤ clamp x 0 100 := le_max_left _ _

lemma clamp_le_hundred (x : ℚ) : clamp x 0 100 ≤ 100 :=
  max_le (by norm_num) (min_le_left _ _)

lemma dequeAppend_length_le (m : ℕ) (h : List Reading) (r : Reading) :
    (dequeAppend m h r).length ≤ m := by
  simp only [dequeAppend, List.length_drop, List.length_append, List.length_singleton]
  omega

lemma dequeAppend_ne_nil (m : ℕ) (hm : 1 ≤ m) (h : List Reading) (r : Reading) :
    dequeAppend m h r ≠ [] := by
  apply List.ne_nil_of_length_pos
  simp only [dequeAppend, List.length_drop, List.length_append, List.length_singleton]
  omega

lemma dequeAppend_of_lt (m : ℕ) (h : List Reading) (r : Reading)
    (hlt : h.length < m) : dequeAppend m h r = h ++ [r] := by
  have : h.length + 1 - m = 0 := by omega
  simp [dequeAppend, this]

lemma dequeAppend_of_full (m : ℕ) (h : List Reading) (r : Reading)
    (hm : 1 ≤ m) (hfull : h.length = m) : dequeAppend m h r = h.tail ++ [r] := by
  have h1 : h.length + 1 - m = 1 := by omega
  rw [dequeAppend, h1, List.drop_append_of_le_length (by omega), ← List.drop_one]

lemma dictGet_mem {s : Store} {id : String} {st : DeviceState}
    (h : dictGet s id = some st) : (id, st) ∈ s := by
  induction s with
  | nil => simp [dictGet] at h
  | cons e rest ih =>
    rw [dictGet] at h
    by_cases he : e.1 = id
    · rw [if_pos he] at h
      obtain rfl : e.2 = st := by injection h
      exact List.mem_cons.2 (Or.inl (by rw [← he]))
    · rw [if_neg he] at h
      exact List.mem_cons_of_mem _ (ih h)

lemma mem_dictSet {s : Store} {id : String} {st : DeviceState} {e : String × DeviceState}
    (h : e ∈ dictSet s id st) : e ∈ s ∨ e = (id, st) := by
  induction s with
  | nil => simp [dictSet] at h; right; exact h
  | cons f rest ih =>
    rw [dictSet] at h
    by_cases hf : f.1 = id
    · rw [if_pos hf] at h
      rcases List.mem_cons.1 h with h | h
      · right; exact h
      · left; exact List.mem_cons_of_mem _ h
    · rw [if_neg hf] at h
      rcases List.mem_cons.1 h with h | h
      · left; exact h ▸ List.mem_cons_self _ _
      · rcases ih h with h | h
        · left; exact List.mem_cons_of_mem _ h
        · right; exact h

lemma mem_appendHist {maxH : ℕ} {s : Store} {id : String} {r : Reading}
    {e : String × DeviceState} (h : e ∈ appendHist maxH s id r) :
    ∃ e0 ∈ s, (e0.1 ≠ id ∧ e = e0) ∨
      e = (e0.1, ⟨e0.2.device, dequeAppend maxH e0.2.history r⟩) := by
  rw [appendHist] at h
  obtain ⟨e0, he0, rfl⟩ := List.mem_map.1 h
  refine ⟨e0, he0, ?_⟩
  by_cases hk : e0.1 = id
  · right; rw [if_pos hk]
  · left; rw [if_neg hk]; exact ⟨hk, rfl⟩

/-! ### Positional characterization of one tick -/

lemma tickDevices_store_get (maxH : ℕ) (TS : ℚ) (sinq : ℚ → ℚ) (piq : ℚ)
    (now : ℕ) (clk : ℕ → ℕ) (noisef : ℕ → ℚ) :
    ∀ (l : Store) (i k j : ℕ),
      (DeviceStore.tickDevices maxH TS sinq piq now clk noisef i k l).2.get? j
        = (l.get? j).map fun e =>
            (DeviceStore.tickEntry maxH TS sinq piq now (noisef (i + j))
              (clk (k + 2 * j)) (clk (k + 2 * j + 1)) e).2
  | [], _, _, j => by simp [DeviceStore.tickDevices]
  | e :: rest, i, k, 0 => by
    simp [DeviceStore.tickDevices]
  | e :: rest, i, k, j + 1 => by
    have ih := tickDevices_store_get maxH TS sinq piq now clk noisef rest (i + 1) (k + 2) j
    have h1 : i + 1 + j = i + (j + 1) := by omega
    have h2 : k + 2 + 2 * j = k + 2 * (j + 1) := by omega
    rw [h1, h2] at ih
    simpa [DeviceStore.tickDevices] using ih

lemma tickDevices_readings_get (maxH : ℕ) (TS : ℚ) (sinq : ℚ → ℚ) (piq : ℚ)
    (now : ℕ) (clk : ℕ → ℕ) (noisef : ℕ → ℚ) :
    ∀ (l : Store) (i k j : ℕ),
      (DeviceStore.tickDevices maxH TS sinq piq now clk noisef i k l).1.get? j
        = (l.get? j).map fun e =>
            (DeviceStore.tickEntry maxH TS sinq piq now (noisef (i + j))
              (clk (k + 2 * j)) (clk (k + 2 * j + 1)) e).1
  | [], _, _, j => by simp [DeviceStore.tickDevices]
  | e :: rest, i, k, 0 => by
    simp [DeviceStore.tickDevices]
  | e :: rest, i, k, j + 1 => by
    have ih := tickDevices_readings_get maxH TS sinq piq now clk noisef rest (i + 1) (k + 2) j
    have h1 : i + 1 + j = i + (j + 1) := by omega
    have h2 : k + 2 + 2 * j = k + 2 * (j + 1) := by omega
    rw [h1, h2] at ih
    simpa [DeviceStore.tickDevices] using ih

lemma mem_tickDevices_store (maxH : ℕ) (TS : ℚ) (sinq : ℚ → ℚ) (piq : ℚ)
    (now : ℕ) (clk : ℕ → ℕ) (noisef : ℕ → ℚ) :
    ∀ (l : Store) (i k : ℕ) (e2 : String × DeviceState),
      e2 ∈ (DeviceStore.tickDevices maxH TS sinq piq now clk noisef i k l).2 →
      ∃ e ∈ l, ∃ ns tT tS,
        e2 = (DeviceStore.tickEntry maxH TS sinq piq now ns tT tS e).2
  | [], _, _, e2 => by simp [DeviceStore.tickDevices]
  | e :: rest, i, k, e2 => by
    intro h
    rw [DeviceStore.tickDevices] at h
    rcases List.mem_cons.1 h with h | h
    · exact ⟨e, List.mem_cons_self _ _, noisef i, clk k, clk (k + 1), h⟩
    · obtain ⟨e0, he0, ns, tT, tS, rfl⟩ :=
        mem_tickDevices_store maxH TS sinq piq now clk noisef rest (i + 1) (k + 2) e2 h
      exact ⟨e0, List.mem_cons_of_mem _ he0, ns, tT, tS, rfl⟩


/-! ### Branch characterizations of the store operations -/

lemma update_none {s : Store} {id : String} (now : ℕ) (p : DeviceUpdate)
    (hg : dictGet s id = none) :
    DeviceStore.update s id now p = .error .notFound := by
  simp only [DeviceStore.update, hg]

lemma update_some {s : Store} {id : String} {st : DeviceState} (now : ℕ)
    (p : DeviceUpdate) (hg : dictGet s id = some st) :
    DeviceStore.update s id now p =
      .ok (let d2 : Device :=
            { st.device with
              name := p.name.getD st.device.name
              plant_type := p.plant_type.getD st.device.plant_type
              location := match p.location with | some l => some l | none => st.device.location
              config := p.config.getD st.device.config
              updated_at := now }
           (d2, dictSet s id ⟨d2, st.history⟩)) := by
  simp only [DeviceStore.update, hg]

lemma delete_none {s : Store} {id : String} (hg : dictGet s id = none) :
    DeviceStore.delete s id = .error .notFound := by
  simp only [DeviceStore.delete, hg]

lemma delete_some {s : Store} {id : String} {st : DeviceState}
    (hg : dictGet s id = some st) :
    DeviceStore.delete s id = .ok (s.filter fun e => !(e.1 == id)) := by
  simp only [DeviceStore.delete, hg]

lemma set_status_none {s : Store} {id : String} (stv : String) (now : ℕ)
    (hg : dictGet s id = none) :
    DeviceStore.set_status s id stv now = .error .notFound := by
  simp only [DeviceStore.set_status, hg]

lemma set_status_invalid {s : Store} {id : String} {st : DeviceState}
    {stv : String} (now : ℕ) (hg : dictGet s id = some st)
    (hstv : ¬(stv = "ok" ∨ stv = "fault" ∨ stv = "offline")) :
    DeviceStore.set_status s id stv now = .error .invalidArgument := by
  simp only [DeviceStore.set_status, hg, if_neg hstv]

lemma set_status_valid {s : Store} {id : String} {st : DeviceState}
    {stv : String} (now : ℕ) (hg : dictGet s id = some st)
    (hstv : stv = "ok" ∨ stv = "fault" ∨ stv = "offline") :
    DeviceStore.set_status s id stv now =
      .ok ({ st.device with status := stv, updated_at := now },
           dictSet s id ⟨{ st.device with status := stv, updated_at := now }, st.history⟩) := by
  simp only [DeviceStore.set_status, hg, if_pos hstv]

lemma set_watering_none {s : Store} {id : String} (onb : Bool) (now : ℕ)
    (hg : dictGet s id = none) :
    DeviceStore.set_watering s id onb now = .error .notFound := by
  simp only [DeviceStore.set_watering, hg]

lemma set_watering_offline {s : Store} {id : String} {st : DeviceState}
    (onb : Bool) (now : ℕ) (hg : dictGet s id = some st)
    (hoff : st.device.status = "offline") :
    DeviceStore.set_watering s id onb now = .error .conflict := by
  simp only [DeviceStore.set_watering, hg, if_pos hoff]

lemma set_watering_ok {s : Store} {id : String} {st : DeviceState}
    (onb : Bool) (now : ℕ) (hg : dictGet s id = some st)
    (hoff : ¬st.device.status = "offline") :
    DeviceStore.set_watering s id onb now =
      .ok ({ st.device with watering := onb, updated_at := now },
           dictSet s id ⟨{ st.device with watering := onb, updated_at := now }, st.history⟩) := by
  simp only [DeviceStore.set_watering, hg, if_neg hoff]

/-! ### The master store invariant -/

/-- The per-entry invariant maintained by every store operation: moisture
and battery within `[0,100]`, history length bounded by the configured
maximum, and (when the configured maximum is positive) a non-empty
history. -/
def EntryInv (maxH : ℕ) (e : String × DeviceState) : Prop :=
  0 ≤ e.2.device.moisture ∧ e.2.device.moisture ≤ 100 ∧
  0 ≤ e.2.device.battery ∧ e.2.device.battery ≤ 100 ∧
  e.2.history.length ≤ maxH ∧
  (1 ≤ maxH → e.2.history ≠ [])

lemma tickDevice_moisture_bounds (TS : ℚ) (sinq : ℚ → ℚ) (piq : ℚ)
    (now : ℕ) (ns : ℚ) (d : Device) (h1 : 0 ≤ d.moisture) (h2 : d.moisture ≤ 100) :
    0 ≤ (DeviceStore.tickDevice TS sinq piq now ns d).moisture ∧
      (DeviceStore.tickDevice TS sinq piq now ns d).moisture ≤ 100 := by
  rw [DeviceStore.tickDevice]
  split
  · exact ⟨h1, h2⟩
  · dsimp only
    constructor
    · split
      · exact clamp_nonneg _
      · exact clamp_nonneg _
    · split
      · exact clamp_le_hundred _
      · exact clamp_le_hundred _

lemma tickDevice_battery_bounds (TS : ℚ) (sinq : ℚ → ℚ) (piq : ℚ)
    (now : ℕ) (ns : ℚ) (d : Device) :
    0 ≤ (DeviceStore.tickDevice TS sinq piq now ns d).battery ∧
      (DeviceStore.tickDevice TS sinq piq now ns d).battery ≤ 100 := by
  rw [DeviceStore.tickDevice]
  split
  · exact ⟨clamp_nonneg _, clamp_le_hundred _⟩
  · exact ⟨clamp_nonneg _, clamp_le_hundred _⟩

lemma entryInv_tickEntry {maxH : ℕ} (TS : ℚ) (sinq : ℚ → ℚ) (piq : ℚ)
    (now : ℕ) (ns : ℚ) (tT tS : ℕ) {e : String × DeviceState}
    (h : EntryInv maxH e) :
    EntryInv maxH (DeviceStore.tickEntry maxH TS sinq piq now ns tT tS e).2 := by
  obtain ⟨h1, h2, -, -, -, -⟩ := h
  obtain ⟨m1, m2⟩ := tickDevice_moisture_bounds TS sinq piq now ns e.2.device h1 h2
  obtain ⟨b1, b2⟩ := tickDevice_battery_bounds TS sinq piq now ns e.2.device
  exact ⟨m1, m2, b1, b2, dequeAppend_length_le _ _ _,
    fun hm => dequeAppend_ne_nil _ hm _ _⟩

lemma entryInv_keep {maxH : ℕ} {e : String × DeviceState}
    (h : EntryInv maxH e) (id : String) (d2 : Device)
    (hm : d2.moisture = e.2.device.moisture) (hb : d2.battery = e.2.device.battery) :
    EntryInv maxH (id, ⟨d2, e.2.history⟩) := by
  obtain ⟨h1, h2, h3, h4, h5, h6⟩ := h
  exact ⟨hm ▸ h1, hm ▸ h2, hb ▸ h3, hb ▸ h4, h5, h6⟩

/-- Every reachable store satisfies the per-entry invariant. -/
lemma reachable_entryInv {maxH : ℕ} {sinq : ℚ → ℚ} {piq : ℚ} {s : Store}
    (h : Reachable maxH sinq piq s) : ∀ e ∈ s, EntryInv maxH e := by
  induction h with
  | init => intro e he; simp at he
  | @step s op hr hv ih =>
    intro e he
    match op with
    | .create id now tT tS p =>
      obtain ⟨hm0, hm1, hb0, hb1, -⟩ := hv
      simp only [applyOp, DeviceStore.create] at he
      obtain ⟨e0, he0, heq⟩ := mem_appendHist he
      rcases mem_dictSet he0 with he0 | he0
      · rcases heq with ⟨-, rfl⟩ | rfl
        · exact ih _ he0
        · obtain ⟨i1, i2, i3, i4, i5, i6⟩ := ih _ he0
          exact ⟨i1, i2, i3, i4, dequeAppend_length_le _ _ _,
            fun hm => dequeAppend_ne_nil _ hm _ _⟩
      · subst he0
        rcases heq with ⟨hne, rfl⟩ | rfl
        · exact absurd rfl hne
        · exact ⟨hm0, hm1, hb0, hb1, dequeAppend_length_le _ _ _,
            fun hm => dequeAppend_ne_nil _ hm _ _⟩
    | .update id now p =>
      simp only [applyOp] at he
      cases hg : dictGet s id with
      | none => rw [update_none now p hg] at he; exact ih _ he
      | some st =>
        rw [update_some now p hg] at he
        simp only at he
        rcases mem_dictSet he with he | rfl
        · exact ih _ he
        · exact entryInv_keep (ih _ (dictGet_mem hg)) _ _ rfl rfl
    | .delete id =>
      simp only [applyOp] at he
      cases hg : dictGet s id with
      | none => rw [delete_none hg] at he; exact ih _ he
      | some st =>
        rw [delete_some hg] at he
        simp only at he
        exact ih _ (List.mem_filter.1 he).1
    | .setStatus id stv now =>
      simp only [applyOp] at he
      cases hg : dictGet s id with
      | none => rw [set_status_none stv now hg] at he; exact ih _ he
      | some st =>
        by_cases hstv : stv = "ok" ∨ stv = "fault" ∨ stv = "offline"
        · rw [set_status_valid now hg hstv] at he
          simp only at he
          rcases mem_dictSet he with he | rfl
          · exact ih _ he
          · exact entryInv_keep (ih _ (dictGet_mem hg)) _ _ rfl rfl
        · rw [set_status_invalid now hg hstv] at he; exact ih _ he
    | .setWatering id onb now =>
      simp only [applyOp] at he
      cases hg : dictGet s id with
      | none => rw [set_watering_none onb now hg] at he; exact ih _ he
      | some st =>
        by_cases hoff : st.device.status = "offline"
        · rw [set_watering_offline onb now hg hoff] at he; exact ih _ he
        · rw [set_watering_ok onb now hg hoff] at he
          simp only at he
          rcases mem_dictSet he with he | rfl
          · exact ih _ he
          · exact entryInv_keep (ih _ (dictGet_mem hg)) _ _ rfl rfl
    | .tick TS clk noisef k =>
      simp only [applyOp, DeviceStore.tickAll] at he
      obtain ⟨e0, he0, ns, tT, tS, rfl⟩ :=
        mem_tickDevices_store maxH TS sinq piq (clk k) clk noisef s 0 (k + 1) e he
      exact entryInv_tickEntry TS sinq piq (clk k) ns tT tS (ih _ he0)

/-! ### Spec-side predicates -/

/-- Spec invariant: `0 ≤ moisture ≤ 100` and `0 ≤ battery ≤ 100` for every
device of the store. -/
def BoundsOK (s : Store) : Prop :=
  ∀ e ∈ s, 0 ≤ e.2.device.moisture ∧ e.2.device.moisture ≤ 100 ∧
    0 ≤ e.2.device.battery ∧ e.2.device.battery ≤ 100

/-- Spec invariant: no device history ever exceeds the configured maximum
length. -/
def HistLenOK (maxH : ℕ) (s : Store) : Prop :=
  ∀ e ∈ s, e.2.history.length ≤ maxH

/-- Spec description of the bounded-history append: a non-full history
grows by one at the tail, and appending to a full history first evicts the
oldest (head) reading. -/
def DequeFIFO (maxH : ℕ) : Prop :=
  ∀ (h : List Reading) (r : Reading),
    (h.length < maxH → dequeAppend maxH h r = h ++ [r]) ∧
    (h.length = maxH → 1 ≤ maxH → dequeAppend maxH h r = h.tail ++ [r])

/-- Spec safety property behind `current`: for every device present in the
store, `current` returns a reading (the `history[-1]` access cannot
raise). -/
def CurrentOK (s : Store) : Prop :=
  ∀ id st, dictGet s id = some st → ∃ r, DeviceStore.current s id = .ok r

/-! ### Claim C1 -/

/-- Claim C1: for every device in the store and after every operation
(create, update, setStatus, setWatering, tick — and also delete), the
device's moisture and battery both lie in the closed interval [0, 100]. -/
theorem moisture_battery_bounds_invariant {maxH : ℕ} {sinq : ℚ → ℚ} {piq : ℚ}
    {s : Store} (h : Reachable maxH sinq piq s) : BoundsOK s := by
  intro e he
  obtain ⟨h1, h2, h3, h4, -, -⟩ := reachable_entryInv h e he
  exact ⟨h1, h2, h3, h4⟩

/-! ### Claim C5 -/

/-- Claim C5: in every reachable store state the history length never
exceeds the configured maximum, and the bounded append is FIFO: appending
to a full history evicts the oldest reading first, so the history always
holds the most recent readings in append order. -/
theorem history_bound_fifo {maxH : ℕ} {sinq : ℚ → ℚ} {piq : ℚ}
    {s : Store} (h : Reachable maxH sinq piq s) :
    HistLenOK maxH s ∧ DequeFIFO maxH := by
  constructor
  · intro e he
    exact (reachable_entryInv h e he).2.2.2.2.1
  · intro hist r
    exact ⟨dequeAppend_of_lt maxH hist r, fun hfull hm => dequeAppend_of_full maxH hist r hm hfull⟩

/-! ### Claim C10 -/

/-- Claim C10: in every reachable store state (with the configured history
maximum positive, as §6 of the spec requires), every present device has a
non-empty history, so `current` on a present device always returns a
reading — the `history[-1]` access inside `current` can never fail for an
existing device. -/
theorem current_total_on_reachable {maxH : ℕ} {sinq : ℚ → ℚ} {piq : ℚ}
    {s : Store} (hm : 1 ≤ maxH) (h : Reachable maxH sinq piq s) : CurrentOK s := by
  intro id st hg
  have hne : st.history ≠ [] :=
    (reachable_entryInv h _ (dictGet_mem hg)).2.2.2.2.2 hm
  refine ⟨st.history.getLast hne, ?_⟩
  simp only [DeviceStore.current, hg, List.getLast?_eq_getLast st.history hne]

/-! ### Concrete instantiations used by the witnesses -/

/-- A trivial stand-in for `math.sin` used in concrete instantiations. -/
def sinZero : ℚ → ℚ := fun _ => 0

/-- The identity clock: the n-th `datetime.now` call returns instant n. -/
def clkId : ℕ → ℕ := fun n => n

/-- Zero fault perturbations. -/
def noiseZero : ℕ → ℚ := fun _ => 0

/-- A concrete creation payload (the seeded example device of the source's
startup hook, line 312). -/
def wPayload : DeviceCreate :=
  { name := "Monstera - Office"
    plant_type := "monstera"
    location := some "Office"
    initial_moisture := 58
    battery := 100
    config := none }

/-- A concrete `create` operation. -/
def wOp : Op := .create "d1" 0 1 2 wPayload

/-- The store holding the one device created by `wOp`. -/
def wStore1 : Store := applyOp 2000 sinZero 0 [] wOp

lemma validOp_wOp : ValidOp wOp := by
  simp only [wOp, ValidOp, DeviceCreate.Valid, wPayload]
  refine ⟨by norm_num, by norm_num, by norm_num, by norm_num, ?_⟩
  intro c hc
  simp at hc

lemma reach_wStore1 : Reachable 2000 sinZero 0 wStore1 :=
  Reachable.step Reachable.init validOp_wOp

/-- Witness for C1 at a concrete reachable store. -/
theorem moisture_battery_bounds_invariant_witness :
    Reachable 2000 sinZero 0 wStore1 ∧ BoundsOK wStore1 :=
  ⟨reach_wStore1, moisture_battery_bounds_invariant reach_wStore1⟩

/-- Witness for C5 at a concrete reachable store. -/
theorem history_bound_fifo_witness :
    Reachable 2000 sinZero 0 wStore1 ∧ HistLenOK 2000 wStore1 ∧ DequeFIFO 2000 :=
  ⟨reach_wStore1, (history_bound_fifo reach_wStore1).1,
    (history_bound_fifo reach_wStore1).2⟩

/-- Witness for C10 at a concrete reachable store. -/
theorem current_total_on_reachable_witness :
    1 ≤ 2000 ∧ Reachable 2000 sinZero 0 wStore1 ∧ CurrentOK wStore1 :=
  ⟨by norm_num, reach_wStore1, current_total_on_reachable (by norm_num) reach_wStore1⟩

/-! ### Claim C6 -/

lemma dictGet_none_keys {s : Store} {id : String} (hg : dictGet s id = none) :
    ∀ e ∈ s, e.1 ≠ id := by
  induction s with
  | nil => intro e he; simp at he
  | cons f rest ih =>
    rw [dictGet] at hg
    by_cases hf : f.1 = id
    · rw [if_pos hf] at hg; exact absurd hg (by simp)
    · rw [if_neg hf] at hg
      intro e he
      rcases List.mem_cons.1 he with rfl | he
      · exact hf
      · exact ih hg e he

lemma dictSet_fresh {s : Store} {id : String} (st : DeviceState)
    (hg : dictGet s id = none) : dictSet s id st = s ++ [(id, st)] := by
  induction s with
  | nil => rfl
  | cons f rest ih =>
    rw [dictGet] at hg
    by_cases hf : f.1 = id
    · rw [if_pos hf] at hg; exact absurd hg (by simp)
    · rw [if_neg hf] at hg
      rw [dictSet, if_neg hf, ih hg, List.cons_append]

lemma dictGet_append_after {s : Store} {id : String} (st : DeviceState)
    (hk : ∀ e ∈ s, e.1 ≠ id) : dictGet (s ++ [(id, st)]) id = some st := by
  induction s with
  | nil => simp [dictGet]
  | cons f rest ih =>
    rw [List.cons_append, dictGet,
      if_neg (hk f (List.mem_cons_self _ _)),
      ih fun e he => hk e (List.mem_cons_of_mem _ he)]

lemma appendHist_append_fresh {maxH : ℕ} {s : Store} {id : String}
    (st : DeviceState) (r : Reading) (hk : ∀ e ∈ s, e.1 ≠ id) :
    appendHist maxH (s ++ [(id, st)]) id r
      = s ++ [(id, ⟨st.device, dequeAppend maxH st.history r⟩)] := by
  rw [appendHist, List.map_append]
  congr 1
  · conv_rhs => rw [← List.map_id s]
    exact List.map_congr_left fun e he => by rw [if_neg (hk e he)]; rfl
  · simp

lemma dequeAppend_nil {m : ℕ} (hm : 1 ≤ m) (r : Reading) :
    dequeAppend m [] r = [r] := by
  have h0 : 0 + 1 - m = 0 := by omega
  simp [dequeAppend, h0]

/-- Claim C6: `create` synchronously appends exactly one seed reading
before returning, so (with a positive configured history bound and a fresh
uuid) calling `current(id)` immediately after `create`, with no tick in
between, succeeds and returns the seed reading, whose moisture equals the
payload's `initial_moisture` rounded to two decimal places. -/
theorem create_seed_current (maxH : ℕ) (sinq : ℚ → ℚ) (piq : ℚ)
    (id : String) (now tTemp tStamp : ℕ) (p : DeviceCreate) (s : Store)
    (hm : 1 ≤ maxH) (hfresh : dictGet s id = none) :
    DeviceStore.current (DeviceStore.create maxH sinq piq id now tTemp tStamp p s).2 id
      = .ok (mkReading sinq piq tTemp tStamp
          (DeviceStore.create maxH sinq piq id now tTemp tStamp p s).1) ∧
    (mkReading sinq piq tTemp tStamp
        (DeviceStore.create maxH sinq piq id now tTemp tStamp p s).1).moisture
      = pyRound2 p.initial_moisture := by
  have hkeys := dictGet_none_keys hfresh
  constructor
  · rw [DeviceStore.create]
    simp only
    rw [dictSet_fresh _ hfresh, appendHist_append_fresh _ _ hkeys]
    rw [DeviceStore.current, dictGet_append_after _ hkeys]
    simp only [dequeAppend_nil hm, List.getLast?_singleton]
  · rfl

/-- Witness for C6: creating the example device with `initial_moisture =
58.0` into an empty store and immediately reading `current` yields the
seed reading with moisture `58.00`, before any tick. -/
theorem create_seed_current_witness :
    (1 ≤ 2000 ∧ dictGet ([] : Store) "d1" = none) ∧
    DeviceStore.current (DeviceStore.create 2000 sinZero 0 "d1" 0 1 2 wPayload []).2 "d1"
      = .ok (mkReading sinZero 0 1 2 (DeviceStore.create 2000 sinZero 0 "d1" 0 1 2 wPayload []).1) ∧
    (mkReading sinZero 0 1 2 (DeviceStore.create 2000 sinZero 0 "d1" 0 1 2 wPayload []).1).moisture
      = 58 := by
  have h := create_seed_current 2000 sinZero 0 "d1" 0 1 2 wPayload [] (by norm_num) rfl
  refine ⟨⟨by norm_num, rfl⟩, h.1, ?_⟩
  rw [h.2]
  norm_num [wPayload, pyRound2, roundHalfEven]

/-! ### Claim C8 -/

/-- Counterexample to C8 as stated: for an absent id and a status outside
the allowed set, `set_status` fails with NotFound (`KeyError`), not
InvalidArgument — the source checks existence before validating the
status string. -/
theorem set_status_precedence_counterexample :
    DeviceStore.set_status ([] : Store) "d1" "bogus" 0 = .error .notFound ∧
    StoreError.notFound ≠ StoreError.invalidArgument :=
  ⟨rfl, by decide⟩

/-- Claim C8 (amended): `setStatus` checks NotFound before InvalidArgument:
for an absent id it fails NotFound regardless of the status value; for a
present device and a status outside {ok, fault, offline} it fails
InvalidArgument; any failing call leaves the store unchanged; for a valid
status on an existing device it sets the status and the update timestamp
and returns the device. -/
theorem set_status_spec_amended (s : Store) (id stv : String) (now : ℕ) :
    (dictGet s id = none → DeviceStore.set_status s id stv now = .error .notFound) ∧
    (∀ st, dictGet s id = some st → ¬(stv = "ok" ∨ stv = "fault" ∨ stv = "offline") →
      DeviceStore.set_status s id stv now = .error .invalidArgument) ∧
    (∀ st, dictGet s id = some st → (stv = "ok" ∨ stv = "fault" ∨ stv = "offline") →
      DeviceStore.set_status s id stv now =
        .ok ({ st.device with status := stv, updated_at := now },
             dictSet s id ⟨{ st.device with status := stv, updated_at := now }, st.history⟩)) ∧
    (∀ maxH sinq piq err, DeviceStore.set_status s id stv now = .error err →
      applyOp maxH sinq piq s (.setStatus id stv now) = s) := by
  refine ⟨fun hg => set_status_none stv now hg,
    fun st hg hstv => set_status_invalid now hg hstv,
    fun st hg hstv => set_status_valid now hg hstv,
    fun maxH sinq piq err herr => ?_⟩
  simp only [applyOp, herr]

/-- Witness for C8 (amended): on the empty store a bogus status yields
NotFound, and on a store holding device `d1` a bogus status yields
InvalidArgument. -/
theorem set_status_spec_amended_witness :
    dictGet ([] : Store) "d1" = none ∧
    DeviceStore.set_status ([] : Store) "d1" "bogus" 7 = .error .notFound ∧
    DeviceStore.set_status wStore1 "d1" "bogus" 7 = .error .invalidArgument :=
  ⟨rfl, (set_status_spec_amended [] "d1" "bogus" 7).1 rfl,
    (set_status_spec_amended wStore1 "d1" "bogus" 7).2.1 _ rfl (by decide)⟩

/-! ### Claim C9 -/

lemma deliverPass_fst (sendOk : ℕ → Bool) :
    ∀ l : List ℕ, (DeviceStore.deliverPass sendOk l).1 = l
  | [] => rfl
  | c :: rest => by
    simp [DeviceStore.deliverPass, deliverPass_fst sendOk rest]

lemma deliverPass_snd (sendOk : ℕ → Bool) :
    ∀ l : List ℕ, (DeviceStore.deliverPass sendOk l).2 = l.filter fun c => !(sendOk c)
  | [] => rfl
  | c :: rest => by
    by_cases h : sendOk c <;>
      simp [DeviceStore.deliverPass, deliverPass_snd sendOk rest, List.filter_cons, h]

lemma foldl_discard : ∀ (ds cs : List ℕ),
    ds.foldl DeviceStore.discard cs = cs.filter fun c => decide (c ∉ ds)
  | [], cs => by simp
  | d :: ds, cs => by
    rw [List.foldl_cons, foldl_discard ds (DeviceStore.discard cs d),
      DeviceStore.discard, List.filter_filter]
    refine List.filter_congr fun c _ => ?_
    by_cases h1 : c = d <;> by_cases h2 : c ∈ ds <;> simp [h1, h2]

/-- Claim C9: `broadcast` on an empty batch is a no-op (no delivery
attempted, observer set unchanged); on a non-empty batch it attempts
delivery to every observer of the snapshot taken at the start (in order,
regardless of earlier failures, so one observer's failure never prevents
delivery to the others), and afterwards removes exactly the observers
whose delivery failed.  The function is total: a delivery failure is
absorbed and never propagates to the caller. -/
theorem broadcast_spec (sendOk : ℕ → Bool) (clients : List ℕ) (batch : List Reading) :
    (batch = [] → DeviceStore.broadcast sendOk clients batch = (clients, [])) ∧
    (batch ≠ [] →
      (DeviceStore.broadcast sendOk clients batch).2 = clients ∧
      (DeviceStore.broadcast sendOk clients batch).1 = clients.filter fun c => sendOk c) := by
  constructor
  · rintro rfl
    rfl
  · intro hne
    obtain ⟨b, bs, rfl⟩ := List.exists_cons_of_ne_nil hne
    rw [DeviceStore.broadcast]
    simp only [List.isEmpty_cons, Bool.false_eq_true, if_false]
    refine ⟨deliverPass_fst sendOk clients, ?_⟩
    rw [deliverPass_snd, foldl_discard]
    refine List.filter_congr fun c hc => ?_
    by_cases h : sendOk c <;> simp [h, List.mem_filter, hc]

/-- Witness for C9: three observers, the middle one failing; the whole
snapshot is attempted and exactly the failing observer is removed. -/
theorem broadcast_spec_witness :
    ((⟨0, "d1", 58, 22, 100, false, "ok"⟩ :: ([] : List Reading)) ≠ []) ∧
    (DeviceStore.broadcast (fun c => c ≠ 2) [1, 2, 3]
      [⟨0, "d1", 58, 22, 100, false, "ok"⟩]).2 = [1, 2, 3] ∧
    (DeviceStore.broadcast (fun c => c ≠ 2) [1, 2, 3]
      [⟨0, "d1", 58, 22, 100, false, "ok"⟩]).1 = [1, 3] := by
  have h := (broadcast_spec (fun c => c ≠ 2) [1, 2, 3]
    [⟨0, "d1", 58, 22, 100, false, "ok"⟩]).2 (by simp)
  refine ⟨by simp, h.1, ?_⟩
  rw [h.2]
  rfl

/-! ### Tick claims: shared store-level characterization -/

lemma tickAll_store_get (maxH : ℕ) (TS : ℚ) (sinq : ℚ → ℚ) (piq : ℚ)
    (clk : ℕ → ℕ) (noisef : ℕ → ℚ) (k : ℕ) (s : Store) (j : ℕ) :
    (DeviceStore.tickAll maxH TS sinq piq clk noisef k s).2.get? j
      = (s.get? j).map fun e =>
          (DeviceStore.tickEntry maxH TS sinq piq (clk k) (noisef j)
            (clk (k + 1 + 2 * j)) (clk (k + 1 + 2 * j + 1)) e).2 := by
  have h := tickDevices_store_get maxH TS sinq piq (clk k) clk noisef s 0 (k + 1) j
  simpa using h

lemma tickAll_readings_get (maxH : ℕ) (TS : ℚ) (sinq : ℚ → ℚ) (piq : ℚ)
    (clk : ℕ → ℕ) (noisef : ℕ → ℚ) (k : ℕ) (s : Store) (j : ℕ) :
    (DeviceStore.tickAll maxH TS sinq piq clk noisef k s).1.get? j
      = (s.get? j).map fun e =>
          (DeviceStore.tickEntry maxH TS sinq piq (clk k) (noisef j)
            (clk (k + 1 + 2 * j)) (clk (k + 1 + 2 * j + 1)) e).1 := by
  have h := tickDevices_readings_get maxH TS sinq piq (clk k) clk noisef s 0 (k + 1) j
  simpa using h

lemma tickDevice_offline (TS : ℚ) (sinq : ℚ → ℚ) (piq : ℚ) (now : ℕ) (ns : ℚ)
    {d : Device} (hoff : d.status = "offline") :
    DeviceStore.tickDevice TS sinq piq now ns d =
      { d with
        battery := clamp (d.battery - d.config.battery_drain_per_hour / 3600 * TS * 0.05) 0 100
        updated_at := now } := by
  rw [DeviceStore.tickDevice, if_pos hoff]

lemma tickDevice_updated_at (TS : ℚ) (sinq : ℚ → ℚ) (piq : ℚ) (now : ℕ)
    (ns : ℚ) (d : Device) :
    (DeviceStore.tickDevice TS sinq piq now ns d).updated_at = now := by
  rw [DeviceStore.tickDevice]
  split
  · rfl
  · rfl

/-! ### Claim C3 -/

/-- Claim C3: for every device whose status is offline, one tick reduces
its battery by exactly `battery_drain_per_hour/3600 * dt * 0.05` (clamped
to [0,100], with `dt = TICK_SECONDS = TS`), leaves its moisture, watering,
and status unchanged, stamps the captured `now`, appends exactly one
reading built from the updated device, and applies no further physics
steps to that device in that tick. -/
theorem offline_tick_spec (maxH : ℕ) (TS : ℚ) (sinq : ℚ → ℚ) (piq : ℚ)
    (clk : ℕ → ℕ) (noisef : ℕ → ℚ) (k : ℕ) (s : Store) (j : ℕ)
    (id : String) (st : DeviceState)
    (hj : s.get? j = some (id, st)) (hoff : st.device.status = "offline") :
    ∃ st2 r,
      (DeviceStore.tickAll maxH TS sinq piq clk noisef k s).2.get? j = some (id, st2) ∧
      (DeviceStore.tickAll maxH TS sinq piq clk noisef k s).1.get? j = some r ∧
      st2.device.moisture = st.device.moisture ∧
      st2.device.watering = st.device.watering ∧
      st2.device.status = st.device.status ∧
      st2.device.battery
        = clamp (st.device.battery - st.device.config.battery_drain_per_hour / 3600 * TS * 0.05) 0 100 ∧
      st2.device.updated_at = clk k ∧
      r = mkReading sinq piq (clk (k + 1 + 2 * j)) (clk (k + 1 + 2 * j + 1)) st2.device ∧
      st2.history = dequeAppend maxH st.history r := by
  have hs := tickAll_store_get maxH TS sinq piq clk noisef k s j
  have hr := tickAll_readings_get maxH TS sinq piq clk noisef k s j
  rw [hj, Option.map_some', DeviceStore.tickEntry] at hs hr
  rw [tickDevice_offline TS sinq piq (clk k) (noisef j) hoff] at hs hr
  exact ⟨_, _, hs, hr, rfl, rfl, rfl, rfl, rfl, rfl, rfl⟩

/-- A concrete offline device (default config, watering on). -/
def wOffDevice : Device :=
  { id := "d2"
    name := "Cactus"
    plant_type := "cactus"
    location := none
    created_at := 0
    updated_at := 0
    status := "offline"
    battery := 50
    watering := true
    moisture := 40
    config := {} }

/-- A one-entry store holding the offline device. -/
def wOffStore : Store := [("d2", ⟨wOffDevice, []⟩)]

/-- Witness for C3 on the concrete offline device. -/
theorem offline_tick_spec_witness :
    (wOffStore.get? 0 = some ("d2", ⟨wOffDevice, []⟩) ∧ wOffDevice.status = "offline") ∧
    ∃ st2 r,
      (DeviceStore.tickAll 2000 1 sinZero 0 clkId noiseZero 0 wOffStore).2.get? 0 = some ("d2", st2) ∧
      (DeviceStore.tickAll 2000 1 sinZero 0 clkId noiseZero 0 wOffStore).1.get? 0 = some r ∧
      st2.device.moisture = wOffDevice.moisture ∧
      st2.device.watering = wOffDevice.watering ∧
      st2.device.status = wOffDevice.status ∧
      st2.device.battery
        = clamp (wOffDevice.battery - wOffDevice.config.battery_drain_per_hour / 3600 * 1 * 0.05) 0 100 ∧
      st2.device.updated_at = clkId 0 ∧
      r = mkReading sinZero 0 (clkId (0 + 1 + 2 * 0)) (clkId (0 + 1 + 2 * 0 + 1)) st2.device ∧
      st2.history = dequeAppend 2000 [] r :=
  ⟨⟨rfl, rfl⟩,
    offline_tick_spec 2000 1 sinZero 0 clkId noiseZero 0 wOffStore 0 "d2" ⟨wOffDevice, []⟩ rfl rfl⟩

/-! ### Claim C4 -/

lemma tickDevice_moisture_ok_watering (TS : ℚ) (sinq : ℚ → ℚ) (piq : ℚ)
    (now : ℕ) (ns : ℚ) {d : Device} (hok : d.status = "ok")
    (hw : d.watering = true) :
    (DeviceStore.tickDevice TS sinq piq now ns d).moisture
      = clamp (d.moisture + d.config.irrigation_rate * TS) 0 100 := by
  rw [DeviceStore.tickDevice, if_neg (show ¬d.status = "offline" by simp [hok])]
  dsimp only
  rw [if_pos hw, if_neg (show ¬d.status = "fault" by simp [hok])]

/-- Claim C4 (amended with the precondition `status = ok`): for an ok
device with watering on, irrigation rate 0.25 and tick duration 1, one
tick moves its moisture to exactly `moisture + 0.25`, capped only by the
upper clamp at 100. -/
theorem irrigation_exact_increase_ok (maxH : ℕ) (TS : ℚ) (sinq : ℚ → ℚ)
    (piq : ℚ) (clk : ℕ → ℕ) (noisef : ℕ → ℚ) (k : ℕ) (s : Store) (j : ℕ)
    (id : String) (st : DeviceState)
    (hj : s.get? j = some (id, st)) (hok : st.device.status = "ok")
    (hw : st.device.watering = true)
    (hirr : st.device.config.irrigation_rate = 0.25) (hTS : TS = 1)
    (hm : 0 ≤ st.device.moisture) :
    ((DeviceStore.tickAll maxH TS sinq piq clk noisef k s).2.get? j).map
        (fun e => e.2.device.moisture)
      = some (min 100 (st.device.moisture + 0.25)) := by
  rw [tickAll_store_get, hj, Option.map_some', Option.map_some']
  show some (DeviceStore.tickDevice TS sinq piq (clk k) (noisef j) st.device).moisture = _
  rw [tickDevice_moisture_ok_watering TS sinq piq (clk k) (noisef j) hok hw, hirr, hTS, mul_one]
  refine congrArg some ?_
  rw [clamp, max_eq_right (le_min (by norm_num) (by linarith))]

/-- A concrete healthy device (default config, watering on). -/
def wOkDevice : Device :=
  { id := "d3"
    name := "Fiddle Leaf Fig"
    plant_type := "ficus"
    location := none
    created_at := 0
    updated_at := 0
    status := "ok"
    battery := 90
    watering := true
    moisture := 50
    config := {} }

/-- A one-entry store holding the healthy watering device. -/
def wOkStore : Store := [("d3", ⟨wOkDevice, []⟩)]

/-- Witness for the amended C4 on the concrete healthy device. -/
theorem irrigation_exact_increase_ok_witness :
    (wOkStore.get? 0 = some ("d3", ⟨wOkDevice, []⟩) ∧ wOkDevice.status = "ok" ∧
      wOkDevice.watering = true ∧ wOkDevice.config.irrigation_rate = 0.25 ∧
      (0 : ℚ) ≤ wOkDevice.moisture) ∧
    ((DeviceStore.tickAll 2000 1 sinZero 0 clkId noiseZero 0 wOkStore).2.get? 0).map
        (fun e => e.2.device.moisture)
      = some (min 100 (wOkDevice.moisture + 0.25)) :=
  ⟨⟨rfl, rfl, rfl, rfl, by norm_num [wOkDevice]⟩,
    irrigation_exact_increase_ok 2000 1 sinZero 0 clkId noiseZero 0 wOkStore 0 "d3"
      ⟨wOkDevice, []⟩ rfl rfl rfl rfl rfl (by norm_num [wOkDevice])⟩

/-- Counterexample to C4 as stated: an offline device with watering on,
irrigation rate 0.25 and tick duration 1 keeps moisture 40 over a tick —
not 40 + 0.25, although no clamp at 100 is involved — because the offline
branch skips irrigation entirely. -/
theorem irrigation_exact_increase_counterexample :
    wOffDevice.watering = true ∧ wOffDevice.config.irrigation_rate = 0.25 ∧
    ((DeviceStore.tickAll 2000 1 sinZero 0 clkId noiseZero 0 wOffStore).2.get? 0).map
        (fun e => e.2.device.moisture)
      = some 40 ∧
    (40 : ℚ) + 0.25 ≤ 100 ∧ (40 : ℚ) ≠ 40 + 0.25 := by
  refine ⟨rfl, rfl, ?_, by norm_num, by norm_num⟩
  rw [tickAll_store_get]
  show some (DeviceStore.tickDevice 1 sinZero 0 (clkId 0) (noiseZero 0) wOffDevice).moisture = _
  rw [tickDevice_offline 1 sinZero 0 (clkId 0) (noiseZero 0) rfl]
  rfl

/-! ### Claim C2 -/

/-- Spec description (amended) of the auto-mode threshold rule applied to
the post-update moisture `postM`: for an ok device with auto mode on,
watering turns on strictly below `min_threshold`, turns off at or above
`max_threshold` provided moisture is not also below `min_threshold` (the
branch that wins when the two thresholds are crossed, i.e. when
`min_threshold > max_threshold`), and is left unchanged in the band
`[min_threshold, max_threshold)`; a fault or offline device, or one with
auto mode off, never has its watering changed by the tick. -/
def AutoWateringSpec (cfg : DeviceConfig) (preW : Bool) (preStatus : String)
    (postM : ℚ) (postW : Bool) : Prop :=
  (preStatus = "ok" → cfg.auto_mode = true →
    (postM < cfg.min_threshold → postW = true) ∧
    (cfg.min_threshold ≤ postM → cfg.max_threshold ≤ postM → postW = false) ∧
    (cfg.min_threshold ≤ postM → postM < cfg.max_threshold → postW = preW)) ∧
  ((preStatus = "fault" ∨ preStatus = "offline" ∨ cfg.auto_mode = false) →
    postW = preW)

/-- Claim C2 (amended): one tick step applies the auto-mode rule of
`AutoWateringSpec` to the post-update moisture — with the "turn off"
branch additionally requiring moisture not below `min_threshold`, which
only differs from the claim when `min_threshold > max_threshold` — and
the store-level tick moves each device exactly by `tickDevice`. -/
theorem auto_mode_hysteresis_amended (maxH : ℕ) (TS : ℚ) (sinq : ℚ → ℚ)
    (piq : ℚ) (clk : ℕ → ℕ) (noisef : ℕ → ℚ) (k : ℕ) (s : Store) (j : ℕ)
    (id : String) (st : DeviceState) (hj : s.get? j = some (id, st)) :
    AutoWateringSpec st.device.config st.device.watering st.device.status
      (DeviceStore.tickDevice TS sinq piq (clk k) (noisef j) st.device).moisture
      (DeviceStore.tickDevice TS sinq piq (clk k) (noisef j) st.device).watering ∧
    ((DeviceStore.tickAll maxH TS sinq piq clk noisef k s).2.get? j).map
        (fun e => e.2.device)
      = some (DeviceStore.tickDevice TS sinq piq (clk k) (noisef j) st.device) := by
  constructor
  · rw [AutoWateringSpec]
    constructor
    · intro hok hauto
      rw [DeviceStore.tickDevice, if_neg (show ¬st.device.status = "offline" by simp [hok])]
      dsimp only
      rw [if_pos (show st.device.config.auto_mode = true ∧ st.device.status = "ok" from ⟨hauto, hok⟩)]
      refine ⟨fun h => ?_, fun h1 h2 => ?_, fun h1 h2 => ?_⟩
      · rw [if_pos h]
      · rw [if_neg (not_lt.2 h1), if_pos h2]
      · rw [if_neg (not_lt.2 h1), if_neg (not_le.2 h2)]
    · intro hdisj
      by_cases hoff : st.device.status = "offline"
      · rw [tickDevice_offline TS sinq piq (clk k) (noisef j) hoff]
      · rw [DeviceStore.tickDevice, if_neg hoff]
        dsimp only
        rcases hdisj with hst | hst | hauto
        · rw [if_neg (show ¬(st.device.config.auto_mode = true ∧ st.device.status = "ok") by
            simp [hst])]
        · exact absurd hst hoff
        · rw [if_neg (show ¬(st.device.config.auto_mode = true ∧ st.device.status = "ok") by
            simp [hauto])]
  · rw [tickAll_store_get, hj, Option.map_some', Option.map_some']
    rfl

/-- A pydantic-valid configuration whose thresholds are crossed
(`min_threshold = 60 > max_threshold = 25`) — `DeviceConfig` has no
cross-field validator — with zero drying so moisture is preserved. -/
def cexConfig : DeviceConfig :=
  { min_threshold := 60
    max_threshold := 25
    evaporation_rate := 0
    irrigation_rate := 0
    noise := 0.2
    auto_mode := true
    temp_mean_c := 22
    temp_amp_c := 4
    leak_rate := 0
    battery_drain_per_hour := 0.2 }

/-- An ok auto-mode device with the crossed-threshold configuration and
moisture 40, watering off. -/
def cexAutoDevice : Device :=
  { id := "d4"
    name := "Crossed"
    plant_type := "generic"
    location := none
    created_at := 0
    updated_at := 0
    status := "ok"
    battery := 80
    watering := false
    moisture := 40
    config := cexConfig }

/-- A one-entry store holding the crossed-threshold device. -/
def wAutoStore : Store := [("d4", ⟨cexAutoDevice, []⟩)]

/-- Counterexample to C2 as stated: on this ok auto-mode device the
post-update moisture is 40, which is at least `max_threshold = 25`, yet
the tick sets watering to `true` (because 40 is also strictly below
`min_threshold = 60` and that branch wins), not to `false` as the claim
requires whenever moisture is at least `max_threshold`. -/
theorem auto_mode_claim_counterexample :
    DeviceConfig.Valid cexConfig ∧
    cexAutoDevice.config.auto_mode = true ∧ cexAutoDevice.status = "ok" ∧
    (DeviceStore.tickDevice 1 sinZero 0 0 0 cexAutoDevice).moisture = 40 ∧
    cexAutoDevice.config.max_threshold ≤ (40 : ℚ) ∧
    (DeviceStore.tickDevice 1 sinZero 0 0 0 cexAutoDevice).watering = true ∧
    (true : Bool) ≠ false := by
  refine ⟨by norm_num [DeviceConfig.Valid, cexConfig], rfl, rfl, ?_,
    by norm_num [cexAutoDevice, cexConfig], ?_, by simp⟩ <;>
  · norm_num [DeviceStore.tickDevice, cexAutoDevice, cexConfig, clamp,
      heatFactor, dailyTemp, sinZero, min_def, max_def]
    rw [if_neg (show ¬("ok" = "offline") by decide)]

/-- Witness for the amended C2 on the crossed-threshold device. -/
theorem auto_mode_hysteresis_amended_witness :
    wAutoStore.get? 0 = some ("d4", ⟨cexAutoDevice, []⟩) ∧
    AutoWateringSpec cexAutoDevice.config cexAutoDevice.watering cexAutoDevice.status
      (DeviceStore.tickDevice 1 sinZero 0 (clkId 0) (noiseZero 0) cexAutoDevice).moisture
      (DeviceStore.tickDevice 1 sinZero 0 (clkId 0) (noiseZero 0) cexAutoDevice).watering ∧
    ((DeviceStore.tickAll 2000 1 sinZero 0 clkId noiseZero 0 wAutoStore).2.get? 0).map
        (fun e => e.2.device)
      = some (DeviceStore.tickDevice 1 sinZero 0 (clkId 0) (noiseZero 0) cexAutoDevice) :=
  ⟨rfl,
    (auto_mode_hysteresis_amended 2000 1 sinZero 0 clkId noiseZero 0 wAutoStore 0 "d4"
      ⟨cexAutoDevice, []⟩ rfl).1,
    (auto_mode_hysteresis_amended 2000 1 sinZero 0 clkId noiseZero 0 wAutoStore 0 "d4"
      ⟨cexAutoDevice, []⟩ rfl).2⟩

/-! ### Claim C7 -/

/-- Claim C7 (amended): within one tick every device is advanced with the
same tick duration `TS` and its update timestamp is set to the single
`now` captured at tick start (`clk k`); the reading appended for device
`j`, however, is stamped from a fresh per-device clock read — the second
of the two `datetime.now` calls `_append_reading_unlocked` makes — so the
batch readings carry the clock values at call indices `k + 2j + 2`, not
the captured `now`. -/
theorem tick_single_now_amended (maxH : ℕ) (TS : ℚ) (sinq : ℚ → ℚ)
    (piq : ℚ) (clk : ℕ → ℕ) (noisef : ℕ → ℚ) (k : ℕ) (s : Store) (j : ℕ)
    (id : String) (st : DeviceState) (hj : s.get? j = some (id, st)) :
    ((DeviceStore.tickAll maxH TS sinq piq clk noisef k s).2.get? j).map
        (fun e => e.2.device.updated_at)
      = some (clk k) ∧
    ((DeviceStore.tickAll maxH TS sinq piq clk noisef k s).1.get? j).map
        (fun r => r.timestamp)
      = some (clk (k + 1 + 2 * j + 1)) := by
  constructor
  · rw [tickAll_store_get, hj, Option.map_some', Option.map_some']
    show some (DeviceStore.tickDevice TS sinq piq (clk k) (noisef j) st.device).updated_at = _
    rw [tickDevice_updated_at]
  · rw [tickAll_readings_get, hj, Option.map_some', Option.map_some']
    rfl

/-- A first concrete ok device for a two-device store. -/
def wDevA : Device :=
  { id := "a"
    name := "A"
    plant_type := "generic"
    location := none
    created_at := 0
    updated_at := 0
    status := "ok"
    battery := 100
    watering := false
    moisture := 50
    config := {} }

/-- A second concrete ok device for a two-device store. -/
def wDevB : Device :=
  { id := "b"
    name := "B"
    plant_type := "generic"
    location := none
    created_at := 0
    updated_at := 0
    status := "ok"
    battery := 100
    watering := false
    moisture := 50
    config := {} }

/-- A two-device store. -/
def wStore2 : Store := [("a", ⟨wDevA, []⟩), ("b", ⟨wDevB, []⟩)]

/-- Counterexample to C7 as stated: ticking a two-device store with the
identity clock (call index n returns instant n) captures `now = 0`, but
the two batch readings are stamped 2 and 4 — they neither equal each
other nor the captured tick-start instant. -/
theorem tick_timestamp_counterexample :
    ((DeviceStore.tickAll 2000 1 sinZero 0 clkId noiseZero 0 wStore2).1.map
        fun r => r.timestamp)
      = [2, 4] ∧
    clkId 0 = 0 ∧ (2 : ℕ) ≠ 0 ∧ (2 : ℕ) ≠ 4 := by
  refine ⟨?_, rfl, by decide, by decide⟩
  rfl

/-- Witness for the amended C7 on the two-device store, at device index 0. -/
theorem tick_single_now_amended_witness :
    wStore2.get? 0 = some ("a", ⟨wDevA, []⟩) ∧
    ((DeviceStore.tickAll 2000 1 sinZero 0 clkId noiseZero 0 wStore2).2.get? 0).map
        (fun e => e.2.device.updated_at)
      = some (clkId 0) ∧
    ((DeviceStore.tickAll 2000 1 sinZero 0 clkId noiseZero 0 wStore2).1.get? 0).map
        (fun r => r.timestamp)
      = some (clkId (0 + 1 + 2 * 0 + 1)) :=
  ⟨rfl,
    (tick_single_now_amended 2000 1 sinZero 0 clkId noiseZero 0 wStore2 0 "a"
      ⟨wDevA, []⟩ rfl).1,
    (tick_single_now_amended 2000 1 sinZero 0 clkId noiseZero 0 wStore2 0 "a"
      ⟨wDevA, []⟩ rfl).2⟩
